import Mathlib

/-
Shallow embedding of the store_test_task repository: the order/inventory
consistency engine (product/views.py: CreateOrder, UpdateOrder, CancelOrder,
CompleteOrder) and the summary aggregation job (product/tasks.py:
summary_task), over the data model of product/models.py.

Conventions of the embedding:
- Database tables are association lists keyed by primary key, preserving
  insertion order (Django default iteration order used by the code).
- Monetary DecimalField values (price, cost_price) are modelled as Int
  (the code only adds and subtracts them, so the scale is irrelevant).
- IntegerField values (stock, quantity) are Int, as in the source model.
- DateTimeField values are modelled as Int timestamps; a save of an Order
  rewrites its updated field to the current time (auto_now), carried in
  State.now.
- Each Django view handler is a pure function State -> State x response.
  The handlers in views.py perform all validation reading only database
  state (in-memory mutations of fetched instances are not persisted until
  .save()), and call .save() only after the last possible early return;
  the embedding mirrors this as a planning phase that reads the initial
  state and either fails or produces the list of row writes, followed by
  a commit phase that applies the writes in save order (later saves of
  the same row overwrite earlier ones, as in the source).
-/

namespace Store

inductive OrderStatus
  | stable
  | completed
  | cancelled
deriving DecidableEq, Repr

structure Product where
  product_name : String
  stock : Int
  price : Int
  cost_price : Int
deriving DecidableEq, Repr

structure Order where
  user : Nat
  order_status : OrderStatus
  updated : Int
deriving DecidableEq, Repr

structure ProductOrder where
  quantity : Int
  product : Nat
  order : Nat
deriving DecidableEq, Repr

structure SummaryReportModel where
  name : String
  first_date : Int
  second_date : Int
deriving DecidableEq, Repr

structure State where
  users : List Nat
  products : List (Nat × Product)
  orders : List (Nat × Order)
  productOrders : List ProductOrder
  reports : List (Nat × SummaryReportModel)
  nextOrderId : Nat
  nextReportId : Nat
  now : Int
deriving DecidableEq, Repr

/-- Primary-key lookup in a table (Model.objects.get(pk=k)). -/
def lookup {α : Type} (l : List (Nat × α)) (k : Nat) : Option α :=
  match l with
  | [] => none
  | (k', v) :: rest => if k' = k then some v else lookup rest k

/-- A row save: replace the row with this key in place, or insert it. -/
def setAssoc {α : Type} (l : List (Nat × α)) (k : Nat) (v : α) : List (Nat × α) :=
  match l with
  | [] => [(k, v)]
  | (k', v') :: rest => if k' = k then (k, v) :: rest else (k', v') :: setAssoc rest k v

/-- Sequential product saves: apply each pending write in order, later
writes to the same key overwriting earlier ones (the save loop in the
views appends instances and saves them one by one at the end). -/
def commitProducts (ps : List (Nat × Product)) (ws : List (Nat × Product)) :
    List (Nat × Product) :=
  match ws with
  | [] => ps
  | (k, v) :: rest => commitProducts (setAssoc ps k v) rest

/-- The typed failures the handlers return as error JSON responses. -/
inductive Err
  | userNotFound (uid : Nat)
  | notFound (pid : Nat)
  | insufficientStock (pid : Nat)
  | orderNotFound (oid : Nat)
  | invalidState
  | missingLine (pid : Nat)
deriving DecidableEq, Repr

/-- The ProductOrder rows of one order, in table order
(ProductOrder.objects.filter(order=pk)). -/
def ordersLines (s : State) (oid : Nat) : List ProductOrder :=
  s.productOrders.filter (fun po => decide (po.order = oid))

/-- The per-line loop of CreateOrder.post: resolve each product against the
database (each Product.objects.get reads committed state, since nothing has
been saved yet), reject a missing product or a quantity above stock, and
stage the decremented product row and the new order line. -/
def planCreateLines (products : List (Nat × Product)) :
    List (Nat × Int) → Except Err (List (Nat × Product) × List (Nat × Int))
  | [] => Except.ok ([], [])
  | (pid, qty) :: rest =>
    match lookup products pid with
    | none => Except.error (Err.notFound pid)
    | some p =>
      if qty > p.stock then Except.error (Err.insufficientStock pid)
      else
        match planCreateLines products rest with
        | Except.error e => Except.error e
        | Except.ok (ws, pos) =>
          Except.ok ((pid, { p with stock := p.stock - qty }) :: ws, (pid, qty) :: pos)

/-- CreateOrder.post: validate the user, run the per-line loop, then save
the order, the decremented products and the new lines. -/
def createOrder (s : State) (userId : Nat) (lines : List (Nat × Int)) :
    State × Except Err Nat :=
  if userId ∈ s.users then
    match planCreateLines s.products lines with
    | Except.error e => (s, Except.error e)
    | Except.ok (ws, pos) =>
      let oid := s.nextOrderId
      ({ s with
          orders := s.orders ++
            [(oid, { user := userId, order_status := OrderStatus.stable, updated := s.now })],
          products := commitProducts s.products ws,
          productOrders := s.productOrders ++
            pos.map (fun l => { quantity := l.2, product := l.1, order := oid }),
          nextOrderId := oid + 1 },
        Except.ok oid)
  else (s, Except.error (Err.userNotFound userId))

/-- UpdateOrder.reorder_by_id builds a Python dict from the request list;
a later entry for the same product id overwrites an earlier one. -/
def dictGet (l : List (Nat × Int)) (pid : Nat) : Option Int :=
  match l with
  | [] => none
  | (k, v) :: rest =>
    match dictGet rest pid with
    | some v' => some v'
    | none => if k = pid then some v else none

/-- The per-line loop of UpdateOrder.put: for each existing line of the
order, look the product up (select_related reads committed state), require
the product to appear in the request dict, reject a new quantity above the
current stock, and stage the adjusted product row
(stock + old_quantity - new_quantity). -/
def planUpdateLines (products : List (Nat × Product)) (newDict : List (Nat × Int)) :
    List ProductOrder → Except Err (List (Nat × Product))
  | [] => Except.ok []
  | po :: rest =>
    match lookup products po.product with
    | none => Except.error (Err.notFound po.product)
    | some p =>
      match dictGet newDict po.product with
      | none => Except.error (Err.missingLine po.product)
      | some newq =>
        if newq > p.stock then Except.error (Err.insufficientStock po.product)
        else
          match planUpdateLines products newDict rest with
          | Except.error e => Except.error e
          | Except.ok ws =>
            Except.ok ((po.product, { p with stock := p.stock + po.quantity - newq }) :: ws)

/-- UpdateOrder.put: reject a missing order or a terminal order, run the
per-line loop over the order's existing lines, then save the order, the
adjusted products and the requantified lines. Request entries for products
the order does not contain are never read by the loop. -/
def updateOrder (s : State) (oid : Nat) (newLines : List (Nat × Int)) :
    State × Except Err Unit :=
  match lookup s.orders oid with
  | none => (s, Except.error (Err.orderNotFound oid))
  | some o =>
    if o.order_status = OrderStatus.completed ∨ o.order_status = OrderStatus.cancelled then
      (s, Except.error Err.invalidState)
    else
      match planUpdateLines s.products newLines (ordersLines s oid) with
      | Except.error e => (s, Except.error e)
      | Except.ok ws =>
        ({ s with
            orders := setAssoc s.orders oid { o with updated := s.now },
            products := commitProducts s.products ws,
            productOrders := s.productOrders.map (fun po =>
              if po.order = oid then
                { po with quantity := (dictGet newLines po.product).getD po.quantity }
              else po) },
          Except.ok ())

/-- The restore loop of CancelOrder.get: each line adds its quantity back
onto its product's stock (each select_related instance carries the stock
read at query time). A line whose product row is gone cannot occur under
the foreign-key constraint and contributes no write. -/
def restoreWrites (products : List (Nat × Product)) :
    List ProductOrder → List (Nat × Product)
  | [] => []
  | po :: rest =>
    match lookup products po.product with
    | none => restoreWrites products rest
    | some p => (po.product, { p with stock := p.stock + po.quantity }) :: restoreWrites products rest

/-- CancelOrder.get: reject a missing order, reject only a completed order,
then restore every line's quantity onto its product's stock and set the
status to cancelled. The handler does not reject an already cancelled
order. -/
def cancelOrder (s : State) (oid : Nat) : State × Except Err Unit :=
  match lookup s.orders oid with
  | none => (s, Except.error (Err.orderNotFound oid))
  | some o =>
    if o.order_status = OrderStatus.completed then
      (s, Except.error Err.invalidState)
    else
      ({ s with
          products := commitProducts s.products (restoreWrites s.products (ordersLines s oid)),
          orders := setAssoc s.orders oid
            { o with order_status := OrderStatus.cancelled, updated := s.now } },
        Except.ok ())

/-- CompleteOrder.get: reject a missing order, reject only a cancelled
order, then set the status to completed. Stock is never touched. -/
def completeOrder (s : State) (oid : Nat) : State × Except Err Unit :=
  match lookup s.orders oid with
  | none => (s, Except.error (Err.orderNotFound oid))
  | some o =>
    if o.order_status = OrderStatus.cancelled then
      (s, Except.error Err.invalidState)
    else
      ({ s with
          orders := setAssoc s.orders oid
            { o with order_status := OrderStatus.completed, updated := s.now } },
        Except.ok ())

/-- One row of the summary report table. -/
structure SummaryRow where
  product : String
  revenue : Int
  profit : Int
  sold : Int
  returned : Int
deriving DecidableEq, Repr

/-- The range filter of summary_task: the line's order has its updated
timestamp inside the inclusive window (order updated range join). -/
def inWindow (s : State) (d1 d2 : Int) (po : ProductOrder) : Bool :=
  match lookup s.orders po.order with
  | none => false
  | some o => decide (d1 ≤ o.updated ∧ o.updated ≤ d2)

/-- The status of the order a line belongs to. -/
def lineStatus (s : State) (po : ProductOrder) : Option OrderStatus :=
  (lookup s.orders po.order).map (fun o => o.order_status)

/-- The per-product aggregation of summary_task: over the in-window lines
of this product, returned sums quantity of cancelled lines; over completed
lines, sold sums quantity, revenue sums the product price once per line
(Sum over the joined price column), and profit sums price - cost_price
once per line. An empty aggregate is coalesced to zero. -/
def productRow (s : State) (d1 d2 : Int) (pid : Nat) (p : Product) : SummaryRow :=
  let pos := s.productOrders.filter
    (fun po => inWindow s d1 d2 po && decide (po.product = pid))
  let cancelledLines := pos.filter (fun po => lineStatus s po == some OrderStatus.cancelled)
  let completedLines := pos.filter (fun po => lineStatus s po == some OrderStatus.completed)
  { product := p.product_name
    revenue := (completedLines.map (fun _ => p.price)).sum
    profit := (completedLines.map (fun _ => p.price - p.cost_price)).sum
    sold := (completedLines.map (fun po => po.quantity)).sum
    returned := (cancelledLines.map (fun po => po.quantity)).sum }

/-- A Python dict update keyed by product name: an existing key keeps its
position and gets the new value, a new key is appended. -/
def updateByName (l : List (String × SummaryRow)) (key : String) (row : SummaryRow) :
    List (String × SummaryRow) :=
  match l with
  | [] => [(key, row)]
  | (k, r) :: rest =>
    if k = key then (k, row) :: rest else (k, r) :: updateByName rest key row

/-- The product loop of summary_task: walk the whole catalog in table
order and store each product's row in a dict keyed by product name. -/
def buildProductDict (s : State) (d1 d2 : Int) : List (String × SummaryRow) :=
  s.products.foldl
    (fun acc kp => updateByName acc kp.2.product_name (productRow s d1 d2 kp.1 kp.2)) []

/-- The data rows of the report, in dict iteration order. -/
def summaryRows (s : State) (d1 d2 : Int) : List SummaryRow :=
  (buildProductDict s d1 d2).map (fun kv => kv.2)

/-- One written CSV data row: the dict key followed by the four metrics. -/
def csvRow (kv : String × SummaryRow) : List String :=
  [kv.1, toString kv.2.revenue, toString kv.2.profit, toString kv.2.sold,
    toString kv.2.returned]

/-- The CSV artifact written by summary_task: the fixed header row
followed by one data row per dict entry. -/
def summaryCsv (s : State) (d1 d2 : Int) : List (List String) :=
  ["product", "revenue", "profit", "sold", "returned"] ::
    (buildProductDict s d1 d2).map csvRow

/-- summary_task as a whole: produce the artifact and persist the new
SummaryReportModel record referencing it. -/
def summaryTask (s : State) (d1 d2 : Int) (name : String) :
    State × List (List String) :=
  ({ s with
      reports := s.reports ++
        [(s.nextReportId, { name := name, first_date := d1, second_date := d2 })],
      nextReportId := s.nextReportId + 1 },
    summaryCsv s d1 d2)

/-- SummaryReportModel.objects.get(name=name): first report with this name. -/
def lookupReportByName (reports : List (Nat × SummaryReportModel)) (name : String) :
    Option Nat :=
  match reports with
  | [] => none
  | (rid, r) :: rest => if r.name = name then some rid else lookupReportByName rest name

/-- The two non-error responses of the SummaryReport.post handler. -/
inductive SummaryResponse
  | taskCreated (name : String)
  | alreadyExists (name : String) (rid : Nat)
deriving DecidableEq, Repr

/-- SummaryReport.post: if a report with the requested name exists, answer
with its identity and enqueue nothing; otherwise enqueue one summary task
(apply_async) and acknowledge. The middle component is the list of
enqueued task argument triples. -/
def summaryReportPost (s : State) (d1 d2 : Int) (name : String) :
    State × List (Int × Int × String) × SummaryResponse :=
  match lookupReportByName s.reports name with
  | some rid => (s, [], SummaryResponse.alreadyExists name rid)
  | none => (s, [(d1, d2, name)], SummaryResponse.taskCreated name)

/-- Every catalog row has non-negative stock. -/
def stocksNonNeg (s : State) : Prop :=
  ∀ pr ∈ s.products, 0 ≤ pr.2.stock

/-- Every persisted order line carries a positive quantity. -/
def lineQtysPos (s : State) : Prop :=
  ∀ po ∈ s.productOrders, 0 < po.quantity

instance (s : State) : Decidable (stocksNonNeg s) :=
  inferInstanceAs (Decidable (∀ pr ∈ s.products, 0 ≤ pr.2.stock))

instance (s : State) : Decidable (lineQtysPos s) :=
  inferInstanceAs (Decidable (∀ po ∈ s.productOrders, 0 < po.quantity))

/-- The CreateOrder per-line check: the product exists and the requested
quantity is within stock. -/
def lineOk (products : List (Nat × Product)) (l : Nat × Int) : Bool :=
  match lookup products l.1 with
  | none => false
  | some p => decide (l.2 ≤ p.stock)

/-- The UpdateOrder per-line check: the product row resolves, the product
appears in the request dict, and the new quantity is within current stock. -/
def updLineOk (products : List (Nat × Product)) (nd : List (Nat × Int))
    (po : ProductOrder) : Bool :=
  match lookup products po.product, dictGet nd po.product with
  | some p, some q => decide (q ≤ p.stock)
  | _, _ => false

/-- The product stored for a key, with an irrelevant default. -/
def lookupP (products : List (Nat × Product)) (pid : Nat) : Product :=
  (lookup products pid).getD { product_name := "", stock := 0, price := 0, cost_price := 0 }

/-- The quantity stored for a key in the request dict, with an irrelevant
default. -/
def dictGetD (nd : List (Nat × Int)) (pid : Nat) : Int :=
  (dictGet nd pid).getD 0

/-- The product row staged by one CreateOrder line: the looked-up product
with its stock decremented by the requested quantity. -/
def createWrite (products : List (Nat × Product)) (l : Nat × Int) : Nat × Product :=
  (l.1, { lookupP products l.1 with stock := (lookupP products l.1).stock - l.2 })

/-- The product row staged by one UpdateOrder line: the looked-up product
with its stock adjusted by old_quantity - new_quantity. -/
def updWrite (products : List (Nat × Product)) (nd : List (Nat × Int))
    (po : ProductOrder) : Nat × Product :=
  (po.product, { lookupP products po.product with
      stock := (lookupP products po.product).stock + po.quantity - dictGetD nd po.product })

/- Concrete database states used to evaluate the handlers. -/

/-- A store with one product (stock 5) and one already cancelled order
holding a single line of quantity 2 for it. -/
def exCancelledOrder : State :=
  { users := [1],
    products := [(1, { product_name := "p", stock := 5, price := 10, cost_price := 4 })],
    orders := [(1, { user := 1, order_status := OrderStatus.cancelled, updated := 0 })],
    productOrders := [{ quantity := 2, product := 1, order := 1 }],
    reports := [], nextOrderId := 2, nextReportId := 1, now := 7 }

/-- A store with one product (price 10, cost 4), one completed order with a
line of quantity 3 and one cancelled order with a line of quantity 2, both
orders updated inside the window 0..10. -/
def exSummaryWindow : State :=
  { users := [1],
    products := [(1, { product_name := "p", stock := 0, price := 10, cost_price := 4 })],
    orders := [(1, { user := 1, order_status := OrderStatus.completed, updated := 5 }),
               (2, { user := 1, order_status := OrderStatus.cancelled, updated := 5 })],
    productOrders := [{ quantity := 3, product := 1, order := 1 },
                      { quantity := 2, product := 1, order := 2 }],
    reports := [], nextOrderId := 3, nextReportId := 1, now := 7 }

/-- A store with one product of stock 3 and a stable order holding a line
of quantity 2 for it. -/
def exUpdateStock3 : State :=
  { users := [1],
    products := [(1, { product_name := "p", stock := 3, price := 10, cost_price := 4 })],
    orders := [(1, { user := 1, order_status := OrderStatus.stable, updated := 0 })],
    productOrders := [{ quantity := 2, product := 1, order := 1 }],
    reports := [], nextOrderId := 2, nextReportId := 1, now := 7 }

/-- A store with two products in stock and a stable order holding a line
only for the first one. -/
def exExtraLine : State :=
  { users := [1],
    products := [(1, { product_name := "a", stock := 10, price := 1, cost_price := 1 }),
                 (2, { product_name := "b", stock := 10, price := 1, cost_price := 1 })],
    orders := [(1, { user := 1, order_status := OrderStatus.stable, updated := 0 })],
    productOrders := [{ quantity := 2, product := 1, order := 1 }],
    reports := [], nextOrderId := 2, nextReportId := 1, now := 7 }

/-- A store with two distinct products that share the product name, where
only the first one has a completed in-window line. -/
def exDupNames : State :=
  { users := [1],
    products := [(1, { product_name := "p", stock := 0, price := 10, cost_price := 4 }),
                 (2, { product_name := "p", stock := 0, price := 99, cost_price := 1 })],
    orders := [(1, { user := 1, order_status := OrderStatus.completed, updated := 5 })],
    productOrders := [{ quantity := 3, product := 1, order := 1 }],
    reports := [], nextOrderId := 2, nextReportId := 1, now := 7 }

/-- A healthy store: two stocked products, a stable order with one line per
product, a completed order, and one existing report. -/
def exGood : State :=
  { users := [1],
    products := [(1, { product_name := "a", stock := 10, price := 5, cost_price := 2 }),
                 (2, { product_name := "b", stock := 8, price := 7, cost_price := 3 })],
    orders := [(1, { user := 1, order_status := OrderStatus.stable, updated := 1 }),
               (2, { user := 1, order_status := OrderStatus.completed, updated := 2 })],
    productOrders := [{ quantity := 2, product := 1, order := 1 },
                      { quantity := 1, product := 2, order := 1 }],
    reports := [(4, { name := "july", first_date := 0, second_date := 10 })],
    nextOrderId := 3, nextReportId := 5, now := 9 }

/- Basic lemmas about the table primitives. -/

theorem lookup_mem {α : Type} {l : List (Nat × α)} {k : Nat} {v : α}
    (h : lookup l k = some v) : (k, v) ∈ l := by
  induction l with
  | nil => simp [lookup] at h
  | cons hd tl ih =>
    obtain ⟨k', v'⟩ := hd
    by_cases hk : k' = k
    · subst hk
      simp [lookup] at h
      simp [h]
    · simp [lookup, hk] at h
      exact List.mem_cons_of_mem _ (ih h)

theorem mem_setAssoc {α : Type} {x : Nat × α} {l : List (Nat × α)} {k : Nat} {v : α}
    (h : x ∈ setAssoc l k v) : x = (k, v) ∨ x ∈ l := by
  induction l with
  | nil => simp [setAssoc] at h; simp [h]
  | cons hd tl ih =>
    obtain ⟨k', v'⟩ := hd
    by_cases hk : k' = k
    · subst hk
      simp [setAssoc] at h
      rcases h with h | h
      · exact Or.inl h
      · exact Or.inr (List.mem_cons_of_mem _ h)
    · simp [setAssoc, hk] at h
      rcases h with h | h
      · exact Or.inr (by simp [h])
      · rcases ih h with h' | h'
        · exact Or.inl h'
        · exact Or.inr (List.mem_cons_of_mem _ h')

theorem lookup_setAssoc_eq {α : Type} (l : List (Nat × α)) (k : Nat) (v : α) :
    lookup (setAssoc l k v) k = some v := by
  induction l with
  | nil => simp [setAssoc, lookup]
  | cons hd tl ih =>
    obtain ⟨k', v'⟩ := hd
    by_cases hk : k' = k
    · subst hk; simp [setAssoc, lookup]
    · simp [setAssoc, lookup, hk, ih]

theorem lookup_setAssoc_ne {α : Type} (l : List (Nat × α)) {k k' : Nat} (v : α)
    (h : k' ≠ k) : lookup (setAssoc l k v) k' = lookup l k' := by
  induction l with
  | nil => simp [setAssoc, lookup, Ne.symm h]
  | cons hd tl ih =>
    obtain ⟨k0, v0⟩ := hd
    by_cases hk : k0 = k
    · subst hk
      simp [setAssoc, lookup, Ne.symm h]
    · by_cases hk' : k0 = k'
      · subst hk'; simp [setAssoc, lookup, hk]
      · simp [setAssoc, lookup, hk, hk', ih]

theorem lookup_commitProducts_notMem (ps ws : List (Nat × Product)) (k : Nat)
    (h : ∀ w ∈ ws, w.1 ≠ k) :
    lookup (commitProducts ps ws) k = lookup ps k := by
  induction ws generalizing ps with
  | nil => simp [commitProducts]
  | cons hd tl ih =>
    obtain ⟨k0, v0⟩ := hd
    have hk0 : k0 ≠ k := h (k0, v0) (by simp)
    rw [commitProducts, ih _ (fun w hw => h w (List.mem_cons_of_mem _ hw))]
    exact lookup_setAssoc_ne ps v0 (fun h' => hk0 h'.symm)

theorem lookup_commitProducts_mem (ps ws : List (Nat × Product)) (k : Nat) (v : Product)
    (hnd : (ws.map Prod.fst).Nodup) (hmem : (k, v) ∈ ws) :
    lookup (commitProducts ps ws) k = some v := by
  induction ws generalizing ps with
  | nil => simp at hmem
  | cons hd tl ih =>
    obtain ⟨k0, v0⟩ := hd
    simp only [List.map_cons, List.nodup_cons] at hnd
    rcases List.mem_cons.mp hmem with h | h
    · obtain ⟨hk, hv⟩ : k = k0 ∧ v = v0 := by simpa using h
      subst hk; subst hv
      rw [commitProducts, lookup_commitProducts_notMem (setAssoc ps k v) tl k]
      · exact lookup_setAssoc_eq ps k v
      · intro w hw he
        exact hnd.1 (he ▸ List.mem_map_of_mem Prod.fst hw)
    · rw [commitProducts]
      exact ih _ hnd.2 h

/- On every failure the handlers return before any save: the returned
state is the input state. -/

theorem createOrder_error_state (s : State) (u : Nat) (lines : List (Nat × Int)) (e : Err)
    (h : (createOrder s u lines).2 = Except.error e) : (createOrder s u lines).1 = s := by
  by_cases hu : u ∈ s.users
  · cases hplan : planCreateLines s.products lines with
    | error e' => simp [createOrder, hu, hplan]
    | ok w =>
      obtain ⟨ws, pos⟩ := w
      simp [createOrder, hu, hplan] at h
  · simp [createOrder, hu]

theorem updateOrder_error_state (s : State) (oid : Nat) (newLines : List (Nat × Int)) (e : Err)
    (h : (updateOrder s oid newLines).2 = Except.error e) :
    (updateOrder s oid newLines).1 = s := by
  cases ho : lookup s.orders oid with
  | none => simp [updateOrder, ho]
  | some o =>
    by_cases hst : o.order_status = OrderStatus.completed ∨ o.order_status = OrderStatus.cancelled
    · simp [updateOrder, ho, hst]
    · cases hplan : planUpdateLines s.products newLines (ordersLines s oid) with
      | error e' => simp [updateOrder, ho, hst, hplan]
      | ok ws => simp [updateOrder, ho, hst, hplan] at h

theorem cancelOrder_error_state (s : State) (oid : Nat) (e : Err)
    (h : (cancelOrder s oid).2 = Except.error e) : (cancelOrder s oid).1 = s := by
  cases ho : lookup s.orders oid with
  | none => simp [cancelOrder, ho]
  | some o =>
    by_cases hst : o.order_status = OrderStatus.completed
    · simp [cancelOrder, ho, hst]
    · simp [cancelOrder, ho, hst] at h

theorem completeOrder_error_state (s : State) (oid : Nat) (e : Err)
    (h : (completeOrder s oid).2 = Except.error e) : (completeOrder s oid).1 = s := by
  cases ho : lookup s.orders oid with
  | none => simp [completeOrder, ho]
  | some o =>
    by_cases hst : o.order_status = OrderStatus.cancelled
    · simp [completeOrder, ho, hst]
    · simp [completeOrder, ho, hst] at h

/- Non-negativity of every staged stock write. -/

theorem commitProducts_stock_nonneg (ps ws : List (Nat × Product))
    (hws : ∀ w ∈ ws, 0 ≤ w.2.stock) (hps : ∀ pr ∈ ps, 0 ≤ pr.2.stock) :
    ∀ pr ∈ commitProducts ps ws, 0 ≤ pr.2.stock := by
  induction ws generalizing ps with
  | nil => simpa [commitProducts] using hps
  | cons hd tl ih =>
    obtain ⟨k, v⟩ := hd
    rw [commitProducts]
    refine ih _ (fun w hw => hws w (List.mem_cons_of_mem _ hw)) ?_
    intro pr hpr
    rcases mem_setAssoc hpr with h | h
    · subst h
      exact hws (k, v) (by simp)
    · exact hps pr h

theorem planCreateLines_writes_nonneg (products : List (Nat × Product))
    (lines : List (Nat × Int)) (ws : List (Nat × Product)) (pos : List (Nat × Int))
    (h : planCreateLines products lines = Except.ok (ws, pos)) :
    ∀ w ∈ ws, 0 ≤ w.2.stock := by
  induction lines generalizing ws pos with
  | nil =>
    simp [planCreateLines] at h
    simp [h.1]
  | cons hd tl ih =>
    obtain ⟨pid, qty⟩ := hd
    cases hp : lookup products pid with
    | none => simp [planCreateLines, hp] at h
    | some p =>
      by_cases hq : qty > p.stock
      · simp [planCreateLines, hp, hq] at h
      · cases hrest : planCreateLines products tl with
        | error e => simp [planCreateLines, hp, hq, hrest] at h
        | ok w =>
          obtain ⟨ws', pos'⟩ := w
          simp only [planCreateLines, hp, hq, hrest, if_false] at h
          obtain ⟨hws, _⟩ : ((pid, { p with stock := p.stock - qty }) :: ws' = ws) ∧
              ((pid, qty) :: pos' = pos) := by
            simpa using h
          subst hws
          intro w hw
          rcases List.mem_cons.mp hw with h' | h'
          · subst h'
            simp
            omega
          · exact ih ws' pos' hrest w h'

theorem planUpdateLines_writes_nonneg (products : List (Nat × Product))
    (nd : List (Nat × Int)) (l : List ProductOrder) (ws : List (Nat × Product))
    (h : planUpdateLines products nd l = Except.ok ws)
    (hq : ∀ po ∈ l, 0 < po.quantity) :
    ∀ w ∈ ws, 0 ≤ w.2.stock := by
  induction l generalizing ws with
  | nil =>
    simp [planUpdateLines] at h
    simp [h]
  | cons po tl ih =>
    cases hp : lookup products po.product with
    | none => simp [planUpdateLines, hp] at h
    | some p =>
      cases hd : dictGet nd po.product with
      | none => simp [planUpdateLines, hp, hd] at h
      | some newq =>
        by_cases hgt : newq > p.stock
        · simp [planUpdateLines, hp, hd, hgt] at h
        · cases hrest : planUpdateLines products nd tl with
          | error e => simp [planUpdateLines, hp, hd, hgt, hrest] at h
          | ok ws' =>
            simp only [planUpdateLines, hp, hd, hgt, hrest, if_false] at h
            have hws : (po.product, { p with stock := p.stock + po.quantity - newq }) :: ws'
                = ws := by simpa using h
            subst hws
            intro w hw
            rcases List.mem_cons.mp hw with h' | h'
            · subst h'
              simp
              have := hq po (by simp)
              omega
            · exact ih ws' hrest (fun po' hpo' => hq po' (List.mem_cons_of_mem _ hpo')) w h'

theorem restoreWrites_nonneg (products : List (Nat × Product)) (l : List ProductOrder)
    (hps : ∀ pr ∈ products, 0 ≤ pr.2.stock) (hq : ∀ po ∈ l, 0 < po.quantity) :
    ∀ w ∈ restoreWrites products l, 0 ≤ w.2.stock := by
  induction l with
  | nil => simp [restoreWrites]
  | cons po tl ih =>
    intro w hw
    rw [restoreWrites] at hw
    cases hp : lookup products po.product with
    | none =>
      rw [hp] at hw
      exact ih (fun po' hpo' => hq po' (List.mem_cons_of_mem _ hpo')) w hw
    | some p =>
      rw [hp] at hw
      rcases List.mem_cons.mp hw with h' | h'
      · subst h'
        simp
        have h1 := hps (po.product, p) (lookup_mem hp)
        have h2 := hq po (by simp)
        simp at h1
        omega
      · exact ih (fun po' hpo' => hq po' (List.mem_cons_of_mem _ hpo')) w h'

/- Characterization of the CreateOrder planning loop. -/

theorem planCreateLines_good (products : List (Nat × Product)) (lines : List (Nat × Int))
    (h : ∀ l ∈ lines, lineOk products l = true) :
    planCreateLines products lines =
      Except.ok (lines.map (createWrite products), lines) := by
  induction lines with
  | nil => simp [planCreateLines]
  | cons hd tl ih =>
    obtain ⟨pid, qty⟩ := hd
    have hok := h (pid, qty) (by simp)
    cases hp : lookup products pid with
    | none => simp [lineOk, hp] at hok
    | some p =>
      have hq : ¬ qty > p.stock := by
        simp only [lineOk, hp, decide_eq_true_eq] at hok
        omega
      simp only [planCreateLines, hp, if_neg hq,
        ih (fun l hl => h l (List.mem_cons_of_mem _ hl))]
      simp [createWrite, lookupP, hp]

theorem planCreateLines_append_error (products : List (Nat × Product))
    (l₁ r : List (Nat × Int)) (e : Err)
    (h : ∀ l ∈ l₁, lineOk products l = true)
    (hr : planCreateLines products r = Except.error e) :
    planCreateLines products (l₁ ++ r) = Except.error e := by
  induction l₁ with
  | nil => simpa using hr
  | cons hd tl ih =>
    obtain ⟨pid, qty⟩ := hd
    have hok := h (pid, qty) (by simp)
    cases hp : lookup products pid with
    | none => simp [lineOk, hp] at hok
    | some p =>
      have hq : ¬ qty > p.stock := by
        simp only [lineOk, hp, decide_eq_true_eq] at hok
        omega
      simp only [List.cons_append, planCreateLines, hp, if_neg hq, List.append_eq,
        ih (fun l hl => h l (List.mem_cons_of_mem _ hl))]

theorem planCreateLines_head_notFound (products : List (Nat × Product))
    (pid : Nat) (q : Int) (l₂ : List (Nat × Int)) (hp : lookup products pid = none) :
    planCreateLines products ((pid, q) :: l₂) = Except.error (Err.notFound pid) := by
  simp [planCreateLines, hp]

theorem planCreateLines_head_insufficient (products : List (Nat × Product))
    (pid : Nat) (q : Int) (l₂ : List (Nat × Int)) (p : Product)
    (hp : lookup products pid = some p) (hq : p.stock < q) :
    planCreateLines products ((pid, q) :: l₂) = Except.error (Err.insufficientStock pid) := by
  simp [planCreateLines, hp, hq]

/- Characterization of the UpdateOrder planning loop. -/

theorem planUpdateLines_good (products : List (Nat × Product)) (nd : List (Nat × Int))
    (l : List ProductOrder) (h : ∀ po ∈ l, updLineOk products nd po = true) :
    planUpdateLines products nd l =
      Except.ok (l.map (updWrite products nd)) := by
  induction l with
  | nil => simp [planUpdateLines]
  | cons po tl ih =>
    have hok := h po (by simp)
    cases hp : lookup products po.product with
    | none => simp [updLineOk, hp] at hok
    | some p =>
      cases hd : dictGet nd po.product with
      | none => simp [updLineOk, hp, hd] at hok
      | some newq =>
        have hq : ¬ newq > p.stock := by
          simp only [updLineOk, hp, hd, decide_eq_true_eq] at hok
          omega
        simp only [planUpdateLines, hp, hd, if_neg hq,
          ih (fun po' hpo' => h po' (List.mem_cons_of_mem _ hpo'))]
        simp [updWrite, lookupP, dictGetD, hp, hd]

theorem planUpdateLines_ok_good (products : List (Nat × Product)) (nd : List (Nat × Int))
    (l : List ProductOrder) (ws : List (Nat × Product))
    (h : planUpdateLines products nd l = Except.ok ws) :
    ∀ po ∈ l, updLineOk products nd po = true := by
  induction l generalizing ws with
  | nil => simp
  | cons po tl ih =>
    cases hp : lookup products po.product with
    | none => simp [planUpdateLines, hp] at h
    | some p =>
      cases hd : dictGet nd po.product with
      | none => simp [planUpdateLines, hp, hd] at h
      | some newq =>
        by_cases hq : newq > p.stock
        · simp [planUpdateLines, hp, hd, hq] at h
        · cases hrest : planUpdateLines products nd tl with
          | error e => simp [planUpdateLines, hp, hd, hq, hrest] at h
          | ok ws' =>
            intro po' hpo'
            rcases List.mem_cons.mp hpo' with h' | h'
            · subst h'
              simp only [updLineOk, hp, hd, decide_eq_true_eq]
              omega
            · exact ih ws' hrest po' h'

theorem planUpdateLines_error_kind (products : List (Nat × Product)) (nd : List (Nat × Int))
    (l : List ProductOrder) (e : Err)
    (hres : ∀ po ∈ l, (lookup products po.product).isSome = true)
    (hpres : ∀ po ∈ l, (dictGet nd po.product).isSome = true)
    (h : planUpdateLines products nd l = Except.error e) :
    ∃ pid, e = Err.insufficientStock pid := by
  induction l with
  | nil => simp [planUpdateLines] at h
  | cons po tl ih =>
    cases hp : lookup products po.product with
    | none => simpa [hp] using hres po (by simp)
    | some p =>
      cases hd : dictGet nd po.product with
      | none => simpa [hd] using hpres po (by simp)
      | some newq =>
        by_cases hq : newq > p.stock
        · simp only [planUpdateLines, hp, hd, if_pos hq, Except.error.injEq] at h
          exact ⟨po.product, h.symm⟩
        · cases hrest : planUpdateLines products nd tl with
          | error e' =>
            simp only [planUpdateLines, hp, hd, if_neg hq, hrest, Except.error.injEq] at h
            subst h
            exact ih (fun po' hpo' => hres po' (List.mem_cons_of_mem _ hpo'))
              (fun po' hpo' => hpres po' (List.mem_cons_of_mem _ hpo')) hrest
          | ok ws' => simp [planUpdateLines, hp, hd, hq, hrest] at h

theorem planUpdateLines_append_error (products : List (Nat × Product))
    (nd : List (Nat × Int)) (l₁ r : List ProductOrder) (e : Err)
    (h : ∀ po ∈ l₁, updLineOk products nd po = true)
    (hr : planUpdateLines products nd r = Except.error e) :
    planUpdateLines products nd (l₁ ++ r) = Except.error e := by
  induction l₁ with
  | nil => simpa using hr
  | cons po tl ih =>
    have hok := h po (by simp)
    cases hp : lookup products po.product with
    | none => simp [updLineOk, hp] at hok
    | some p =>
      cases hd : dictGet nd po.product with
      | none => simp [updLineOk, hp, hd] at hok
      | some newq =>
        have hq : ¬ newq > p.stock := by
          simp only [updLineOk, hp, hd, decide_eq_true_eq] at hok
          omega
        simp only [List.cons_append, planUpdateLines, hp, hd, if_neg hq, List.append_eq,
          ih (fun po' hpo' => h po' (List.mem_cons_of_mem _ hpo'))]

theorem planUpdateLines_head_missing (products : List (Nat × Product))
    (nd : List (Nat × Int)) (po : ProductOrder) (post : List ProductOrder) (p : Product)
    (hp : lookup products po.product = some p)
    (hd : dictGet nd po.product = none) :
    planUpdateLines products nd (po :: post) = Except.error (Err.missingLine po.product) := by
  simp [planUpdateLines, hp, hd]

/- Shapes of the committed states on success. -/

theorem createOrder_ok_eq (s : State) (u : Nat) (lines : List (Nat × Int))
    (ws : List (Nat × Product)) (pos : List (Nat × Int)) (hu : u ∈ s.users)
    (hplan : planCreateLines s.products lines = Except.ok (ws, pos)) :
    createOrder s u lines =
      ({ s with
          orders := s.orders ++ [(s.nextOrderId,
            { user := u, order_status := OrderStatus.stable, updated := s.now })],
          products := commitProducts s.products ws,
          productOrders := s.productOrders ++
            pos.map (fun l => { quantity := l.2, product := l.1, order := s.nextOrderId }),
          nextOrderId := s.nextOrderId + 1 },
        Except.ok s.nextOrderId) := by
  simp [createOrder, hu, hplan]

theorem updateOrder_ok_eq (s : State) (oid : Nat) (newLines : List (Nat × Int))
    (o : Order) (ws : List (Nat × Product)) (ho : lookup s.orders oid = some o)
    (hguard : ¬ (o.order_status = OrderStatus.completed ∨
      o.order_status = OrderStatus.cancelled))
    (hplan : planUpdateLines s.products newLines (ordersLines s oid) = Except.ok ws) :
    updateOrder s oid newLines =
      ({ s with
          orders := setAssoc s.orders oid { o with updated := s.now },
          products := commitProducts s.products ws,
          productOrders := s.productOrders.map (fun po =>
            if po.order = oid then
              { po with quantity := (dictGet newLines po.product).getD po.quantity }
            else po) },
        Except.ok ()) := by
  simp [updateOrder, ho, hguard, hplan]

theorem cancelOrder_ok_eq (s : State) (oid : Nat) (o : Order)
    (ho : lookup s.orders oid = some o)
    (hnc : ¬ o.order_status = OrderStatus.completed) :
    cancelOrder s oid =
      ({ s with
          products := commitProducts s.products
            (restoreWrites s.products (ordersLines s oid)),
          orders := setAssoc s.orders oid
            { o with order_status := OrderStatus.cancelled, updated := s.now } },
        Except.ok ()) := by
  simp [cancelOrder, ho, hnc]

theorem completeOrder_products_unchanged (s : State) (oid : Nat) :
    (completeOrder s oid).1.products = s.products := by
  cases ho : lookup s.orders oid with
  | none => simp [completeOrder, ho]
  | some o =>
    by_cases hc : o.order_status = OrderStatus.cancelled
    · simp [completeOrder, ho, hc]
    · simp [completeOrder, ho, hc]

/-- C1: the claim states that cancelling an already cancelled order fails
with InvalidState and never restores stock a second time. The handler only
rejects completed orders: run on a cancelled order holding one line of
quantity 2 against a product of stock 5, it answers success and adds the
quantity onto stock again (stock becomes 7), leaving the order cancelled. -/
theorem C1_cancel_cancelled_restocks_again :
    (cancelOrder exCancelledOrder 1).2 = Except.ok () ∧
    lookup (cancelOrder exCancelledOrder 1).1.products 1 =
      some { product_name := "p", stock := 7, price := 10, cost_price := 4 } ∧
    lookup (cancelOrder exCancelledOrder 1).1.orders 1 =
      some { user := 1, order_status := OrderStatus.cancelled, updated := 7 } :=
  ⟨rfl, rfl, rfl⟩

/-- C2: the claim states revenue is the sum of unit price over completed
in-window units (price times quantity) and profit the per-unit margin sum,
so the window with one completed line of quantity 3 at price 10 / cost 4
and one cancelled line of quantity 2 should give revenue 30 and profit 18.
The aggregator sums price and price - cost_price once per order line,
ignoring quantity: the same window yields revenue 10 and profit 6 (with
sold 3 and returned 2). -/
theorem C2_revenue_counts_lines_not_units :
    summaryRows exSummaryWindow 0 10 =
      [{ product := "p", revenue := 10, profit := 6, sold := 3, returned := 2 }] :=
  rfl

/-- C3 counterexample: updating the single line of a stable order from
quantity 2 to 5 against stock 3 leaves a post-delta stock of
3 + 2 - 5 = 0, which is non-negative, so the claim says the update
succeeds; the handler rejects it with InsufficientStock because it
compares the new quantity against current stock before the delta. -/
theorem C3_counterexample_post_delta_nonneg_but_rejected :
    (updateOrder exUpdateStock3 1 [(1, 5)]).2 = Except.error (Err.insufficientStock 1) ∧
    ((0 : Int) ≤ 3 + 2 - 5) :=
  ⟨rfl, by decide⟩

/-- C3 amended: for a stable order whose lines all resolve and all appear
in the request, UpdateOrder fails with InsufficientStock exactly when some
line requests a new quantity strictly above the product's current stock
(the check is new_quantity > stock, applied before the delta), and
succeeds whenever every line's new quantity is at most current stock. -/
theorem C3_update_insufficient_iff_new_exceeds_stock (s : State) (oid : Nat)
    (newLines : List (Nat × Int)) (o : Order)
    (ho : lookup s.orders oid = some o) (hst : o.order_status = OrderStatus.stable)
    (hres : ∀ po ∈ ordersLines s oid, (lookup s.products po.product).isSome = true)
    (hpres : ∀ po ∈ ordersLines s oid, (dictGet newLines po.product).isSome = true) :
    ((∃ pid, (updateOrder s oid newLines).2 = Except.error (Err.insufficientStock pid)) ↔
      ∃ po ∈ ordersLines s oid, ∃ p q, lookup s.products po.product = some p ∧
        dictGet newLines po.product = some q ∧ p.stock < q) ∧
    ((∀ po ∈ ordersLines s oid, updLineOk s.products newLines po = true) →
      (updateOrder s oid newLines).2 = Except.ok ()) := by
  have hguard : ¬ (o.order_status = OrderStatus.completed ∨
      o.order_status = OrderStatus.cancelled) := by simp [hst]
  have hsucc : (∀ po ∈ ordersLines s oid, updLineOk s.products newLines po = true) →
      (updateOrder s oid newLines).2 = Except.ok () := by
    intro hall
    simp [updateOrder, ho, hguard, planUpdateLines_good s.products newLines _ hall]
  refine ⟨⟨?_, ?_⟩, hsucc⟩
  · rintro ⟨pid, h⟩
    by_cases hall : ∀ po ∈ ordersLines s oid, updLineOk s.products newLines po = true
    · rw [hsucc hall] at h
      simp at h
    · push_neg at hall
      obtain ⟨po, hmem, hbad⟩ := hall
      obtain ⟨p, hp⟩ := Option.isSome_iff_exists.mp (hres po hmem)
      obtain ⟨q, hq⟩ := Option.isSome_iff_exists.mp (hpres po hmem)
      refine ⟨po, hmem, p, q, hp, hq, ?_⟩
      simp [updLineOk, hp, hq] at hbad
      omega
  · rintro ⟨po, hmem, p, q, hp, hq, hlt⟩
    cases hplan : planUpdateLines s.products newLines (ordersLines s oid) with
    | ok ws =>
      have := planUpdateLines_ok_good _ _ _ _ hplan po hmem
      simp only [updLineOk, hp, hq, decide_eq_true_eq] at this
      omega
    | error e =>
      obtain ⟨pid, he⟩ := planUpdateLines_error_kind _ _ _ _ hres hpres hplan
      subst he
      exact ⟨pid, by simp [updateOrder, ho, hguard, hplan]⟩

/-- C3 amended, witnessed at a concrete input: updating the stock-3 order
line from quantity 2 to 1 succeeds. -/
theorem C3_update_witness : (updateOrder exUpdateStock3 1 [(1, 1)]).2 = Except.ok () :=
  (C3_update_insufficient_iff_new_exceeds_stock exUpdateStock3 1 [(1, 1)]
    { user := 1, order_status := OrderStatus.stable, updated := 0 }
    rfl rfl (by decide) (by decide)).2 (by decide)

/-- C5: every failing engine operation leaves the persisted state exactly
as it was: all checks run before any write is committed, so a failure of
CreateOrder, UpdateOrder, CancelOrder or CompleteOrder changes no product
stock, no order status and no line quantity. -/
theorem C5_failed_op_leaves_state_unchanged (s : State) (userId oid1 oid2 oid3 : Nat)
    (lines newLines : List (Nat × Int)) :
    (∀ e, (createOrder s userId lines).2 = Except.error e →
      (createOrder s userId lines).1 = s) ∧
    (∀ e, (updateOrder s oid1 newLines).2 = Except.error e →
      (updateOrder s oid1 newLines).1 = s) ∧
    (∀ e, (cancelOrder s oid2).2 = Except.error e → (cancelOrder s oid2).1 = s) ∧
    (∀ e, (completeOrder s oid3).2 = Except.error e → (completeOrder s oid3).1 = s) :=
  ⟨fun e => createOrder_error_state s userId lines e,
   fun e => updateOrder_error_state s oid1 newLines e,
   fun e => cancelOrder_error_state s oid2 e,
   fun e => completeOrder_error_state s oid3 e⟩

/-- C5 witnessed at concrete failing inputs: an unknown user id and an
unknown order id lead each handler to fail and return the store intact. -/
theorem C5_failed_op_witness :
    (createOrder exGood 99 [(1, 1)]).1 = exGood ∧
    (updateOrder exGood 99 [(1, 1)]).1 = exGood ∧
    (cancelOrder exGood 99).1 = exGood ∧
    (completeOrder exGood 99).1 = exGood :=
  ⟨(C5_failed_op_leaves_state_unchanged exGood 99 99 99 99 [(1, 1)] [(1, 1)]).1
      (Err.userNotFound 99) rfl,
   (C5_failed_op_leaves_state_unchanged exGood 99 99 99 99 [(1, 1)] [(1, 1)]).2.1
      (Err.orderNotFound 99) rfl,
   (C5_failed_op_leaves_state_unchanged exGood 99 99 99 99 [(1, 1)] [(1, 1)]).2.2.1
      (Err.orderNotFound 99) rfl,
   (C5_failed_op_leaves_state_unchanged exGood 99 99 99 99 [(1, 1)] [(1, 1)]).2.2.2
      (Err.orderNotFound 99) rfl⟩

/-- C7: requesting a summary under a name that already has a report skips
aggregation (no task is enqueued), creates no second record or artifact
(the state is unchanged) and answers with the existing report's identity
as a non-error response. -/
theorem C7_summary_request_idempotent_by_name (s : State) (d1 d2 : Int)
    (name : String) (rid : Nat)
    (h : lookupReportByName s.reports name = some rid) :
    summaryReportPost s d1 d2 name = (s, [], SummaryResponse.alreadyExists name rid) := by
  simp [summaryReportPost, h]

/-- C7 witnessed at a concrete input: the store already holds a report
named july with id 4, and a second request for july returns that identity
without enqueueing anything. -/
theorem C7_summary_request_witness :
    summaryReportPost exGood 0 10 "july" =
      (exGood, [], SummaryResponse.alreadyExists "july" 4) :=
  C7_summary_request_idempotent_by_name exGood 0 10 "july" 4 rfl

/-- C10: CompleteOrder on an order that is already completed succeeds
again instead of failing with InvalidState: only cancelled orders are
rejected, the status is rewritten to completed, and no product stock is
touched. -/
theorem C10_recomplete_completed_succeeds (s : State) (oid : Nat) (o : Order)
    (ho : lookup s.orders oid = some o) (hc : o.order_status = OrderStatus.completed) :
    (completeOrder s oid).2 = Except.ok () ∧
    (completeOrder s oid).1.products = s.products ∧
    (completeOrder s oid).1.orders =
      setAssoc s.orders oid
        { o with order_status := OrderStatus.completed, updated := s.now } := by
  have hnc : ¬ o.order_status = OrderStatus.cancelled := by simp [hc]
  simp [completeOrder, ho, hnc]

/-- C10 witnessed at a concrete input: re-completing the completed order 2
succeeds and leaves every stock unchanged. -/
theorem C10_recomplete_witness :
    (completeOrder exGood 2).2 = Except.ok () ∧
    (completeOrder exGood 2).1.products = exGood.products :=
  ⟨(C10_recomplete_completed_succeeds exGood 2
      { user := 1, order_status := OrderStatus.completed, updated := 2 } rfl rfl).1,
   (C10_recomplete_completed_succeeds exGood 2
      { user := 1, order_status := OrderStatus.completed, updated := 2 } rfl rfl).2.1⟩

/-- C4: whatever a committed engine operation does, every product's stock
stays non-negative, given every stock was non-negative before and every
line quantity, persisted or requested, is positive. -/
theorem C4_stock_stays_nonneg (s : State) (userId oid : Nat)
    (lines newLines : List (Nat × Int))
    (h1 : stocksNonNeg s) (h2 : lineQtysPos s)
    (_hl : ∀ l ∈ lines, 0 < l.2) (_hn : ∀ l ∈ newLines, 0 < l.2) :
    stocksNonNeg (createOrder s userId lines).1 ∧
    stocksNonNeg (updateOrder s oid newLines).1 ∧
    stocksNonNeg (cancelOrder s oid).1 ∧
    stocksNonNeg (completeOrder s oid).1 := by
  refine ⟨?_, ?_, ?_, ?_⟩
  · by_cases hu : userId ∈ s.users
    · cases hplan : planCreateLines s.products lines with
      | error e =>
        rw [createOrder_error_state s userId lines e (by simp [createOrder, hu, hplan])]
        exact h1
      | ok w =>
        obtain ⟨ws, pos⟩ := w
        intro pr hpr
        rw [createOrder_ok_eq s userId lines ws pos hu hplan] at hpr
        exact commitProducts_stock_nonneg s.products ws
          (planCreateLines_writes_nonneg s.products lines ws pos hplan) h1 pr hpr
    · simpa [createOrder, hu] using h1
  · cases ho : lookup s.orders oid with
    | none => simpa [updateOrder, ho] using h1
    | some o =>
      by_cases hguard : o.order_status = OrderStatus.completed ∨
          o.order_status = OrderStatus.cancelled
      · simpa [updateOrder, ho, hguard] using h1
      · cases hplan : planUpdateLines s.products newLines (ordersLines s oid) with
        | error e => simpa [updateOrder, ho, hguard, hplan] using h1
        | ok ws =>
          intro pr hpr
          rw [updateOrder_ok_eq s oid newLines o ws ho hguard hplan] at hpr
          refine commitProducts_stock_nonneg s.products ws ?_ h1 pr hpr
          exact planUpdateLines_writes_nonneg s.products newLines (ordersLines s oid) ws
            hplan (fun po hpo => h2 po (List.mem_of_mem_filter hpo))
  · cases ho : lookup s.orders oid with
    | none => simpa [cancelOrder, ho] using h1
    | some o =>
      by_cases hnc : o.order_status = OrderStatus.completed
      · simpa [cancelOrder, ho, hnc] using h1
      · intro pr hpr
        rw [cancelOrder_ok_eq s oid o ho hnc] at hpr
        refine commitProducts_stock_nonneg s.products _ ?_ h1 pr hpr
        exact restoreWrites_nonneg s.products (ordersLines s oid) h1
          (fun po hpo => h2 po (List.mem_of_mem_filter hpo))
  · intro pr hpr
    rw [completeOrder_products_unchanged s oid] at hpr
    exact h1 pr hpr

/-- C4 witnessed at concrete inputs on a healthy store: each of the four
operations leaves every stock non-negative. -/
theorem C4_stock_witness :
    stocksNonNeg (createOrder exGood 1 [(1, 4)]).1 ∧
    stocksNonNeg (updateOrder exGood 1 [(1, 3), (2, 2)]).1 ∧
    stocksNonNeg (cancelOrder exGood 1).1 ∧
    stocksNonNeg (completeOrder exGood 1).1 :=
  C4_stock_stays_nonneg exGood 1 1 [(1, 4)] [(1, 3), (2, 2)]
    (by decide) (by decide) (by decide) (by decide)

theorem createWrite_keys (products : List (Nat × Product)) (lines : List (Nat × Int)) :
    (lines.map (createWrite products)).map Prod.fst = lines.map Prod.fst := by
  rw [List.map_map]
  rfl

theorem updWrite_keys (products : List (Nat × Product)) (nd : List (Nat × Int))
    (l : List ProductOrder) :
    (l.map (updWrite products nd)).map Prod.fst = l.map (fun po => po.product) := by
  rw [List.map_map]
  rfl

/-- C6: for an existing user, CreateOrder over distinct existing products
each within stock succeeds, returning the fresh order id, appending the
order in stable status and one line per pair, decrementing each ordered
product's stock by exactly its quantity and touching no other product.
When a line references a missing product and every earlier line passes its
checks it fails with NotFound naming that product; when every product up
to some line exists but that line's quantity exceeds stock it fails with
InsufficientStock naming it. -/
theorem C6_createOrder_spec (s : State) (userId : Nat) (lines : List (Nat × Int))
    (hu : userId ∈ s.users) :
    ((∀ l ∈ lines, lineOk s.products l = true) → (lines.map Prod.fst).Nodup →
      (createOrder s userId lines).2 = Except.ok s.nextOrderId ∧
      (createOrder s userId lines).1.orders = s.orders ++ [(s.nextOrderId,
        { user := userId, order_status := OrderStatus.stable, updated := s.now })] ∧
      (createOrder s userId lines).1.productOrders = s.productOrders ++
        lines.map (fun l => { quantity := l.2, product := l.1, order := s.nextOrderId }) ∧
      (∀ l ∈ lines, ∀ p, lookup s.products l.1 = some p →
        lookup (createOrder s userId lines).1.products l.1 =
          some { p with stock := p.stock - l.2 }) ∧
      (∀ pid, pid ∉ lines.map Prod.fst →
        lookup (createOrder s userId lines).1.products pid = lookup s.products pid)) ∧
    (∀ l₁ pid q l₂, lines = l₁ ++ (pid, q) :: l₂ →
      (∀ l ∈ l₁, lineOk s.products l = true) → lookup s.products pid = none →
      createOrder s userId lines = (s, Except.error (Err.notFound pid))) ∧
    (∀ l₁ pid q l₂ p, lines = l₁ ++ (pid, q) :: l₂ →
      (∀ l ∈ l₁, lineOk s.products l = true) → lookup s.products pid = some p →
      p.stock < q →
      createOrder s userId lines = (s, Except.error (Err.insufficientStock pid))) := by
  refine ⟨?_, ?_, ?_⟩
  · intro hgood hnd
    have hplan := planCreateLines_good s.products lines hgood
    rw [createOrder_ok_eq s userId lines _ _ hu hplan]
    refine ⟨rfl, rfl, rfl, ?_, ?_⟩
    · intro l hl p hp
      show lookup (commitProducts s.products (lines.map (createWrite s.products))) l.1 =
        some { p with stock := p.stock - l.2 }
      have hmem : (l.1, (createWrite s.products l).2) ∈ lines.map (createWrite s.products) :=
        List.mem_map_of_mem (createWrite s.products) hl
      rw [lookup_commitProducts_mem s.products (lines.map (createWrite s.products)) l.1
        (createWrite s.products l).2 (by rw [createWrite_keys]; exact hnd) hmem]
      simp [createWrite, lookupP, hp]
    · intro pid hpid
      show lookup (commitProducts s.products (lines.map (createWrite s.products))) pid =
        lookup s.products pid
      refine lookup_commitProducts_notMem s.products _ pid ?_
      intro w hw he
      obtain ⟨l, hl, hwl⟩ := List.mem_map.mp hw
      apply hpid
      rw [← he, ← hwl]
      exact List.mem_map_of_mem Prod.fst hl
  · intro l₁ pid q l₂ heq h₁ hp
    subst heq
    have hplan := planCreateLines_append_error s.products l₁ ((pid, q) :: l₂) _ h₁
      (planCreateLines_head_notFound s.products pid q l₂ hp)
    simp [createOrder, hu, hplan]
  · intro l₁ pid q l₂ p heq h₁ hp hq
    subst heq
    have hplan := planCreateLines_append_error s.products l₁ ((pid, q) :: l₂) _ h₁
      (planCreateLines_head_insufficient s.products pid q l₂ p hp hq)
    simp [createOrder, hu, hplan]

/-- C6 witnessed at concrete inputs on a healthy store: a two-line order
within stock succeeds with the fresh id, a reference to an unknown product
fails with NotFound, and a quantity above stock fails with
InsufficientStock, each leaving the store untouched. -/
theorem C6_createOrder_witness :
    (createOrder exGood 1 [(1, 2), (2, 3)]).2 = Except.ok 3 ∧
    createOrder exGood 1 [(99, 1)] = (exGood, Except.error (Err.notFound 99)) ∧
    createOrder exGood 1 [(1, 11)] = (exGood, Except.error (Err.insufficientStock 1)) :=
  ⟨((C6_createOrder_spec exGood 1 [(1, 2), (2, 3)] (by decide)).1
      (by decide) (by decide)).1,
   (C6_createOrder_spec exGood 1 [(99, 1)] (by decide)).2.1 [] 99 1 [] rfl
      (by decide) rfl,
   (C6_createOrder_spec exGood 1 [(1, 11)] (by decide)).2.2 [] 1 11 []
      { product_name := "a", stock := 10, price := 5, cost_price := 2 } rfl
      (by decide) rfl (by decide)⟩

/-- C8 counterexample: on a stable order holding only a line for product 1,
an update request also naming product 2 (which the order does not contain)
is not rejected: it succeeds, adds no line for product 2 and leaves
product 2 untouched — the extra entry is silently ignored. -/
theorem C8_counterexample_extra_product_ignored :
    (updateOrder exExtraLine 1 [(1, 2), (2, 1)]).2 = Except.ok () ∧
    (updateOrder exExtraLine 1 [(1, 2), (2, 1)]).1.productOrders =
      [{ quantity := 2, product := 1, order := 1 }] ∧
    lookup (updateOrder exExtraLine 1 [(1, 2), (2, 1)]).1.products 2 =
      some { product_name := "b", stock := 10, price := 1, cost_price := 1 } :=
  ⟨rfl, rfl, rfl⟩

/-- C8 amended: for a stable order, UpdateOrder requires every current
line's product to appear in new_lines — when a line's product is absent
(and the earlier lines pass their checks) it fails with MissingLine naming
that product id; extra new_lines entries for products not in the order are
silently ignored rather than rejected: the update succeeds, only
requantifies the existing rows, and products outside the order's line set
keep their stored row. -/
theorem C8_update_product_set_rule (s : State) (oid : Nat)
    (newLines : List (Nat × Int)) (o : Order)
    (ho : lookup s.orders oid = some o) (hst : o.order_status = OrderStatus.stable) :
    (∀ pre po post, ordersLines s oid = pre ++ po :: post →
      (∀ po' ∈ pre, updLineOk s.products newLines po' = true) →
      (lookup s.products po.product).isSome = true →
      dictGet newLines po.product = none →
      updateOrder s oid newLines = (s, Except.error (Err.missingLine po.product))) ∧
    ((∀ po ∈ ordersLines s oid, updLineOk s.products newLines po = true) →
      (updateOrder s oid newLines).2 = Except.ok () ∧
      (updateOrder s oid newLines).1.productOrders = s.productOrders.map (fun po =>
        if po.order = oid then
          { po with quantity := (dictGet newLines po.product).getD po.quantity }
        else po) ∧
      (∀ pid, pid ∉ (ordersLines s oid).map (fun po => po.product) →
        lookup (updateOrder s oid newLines).1.products pid = lookup s.products pid)) := by
  have hguard : ¬ (o.order_status = OrderStatus.completed ∨
      o.order_status = OrderStatus.cancelled) := by simp [hst]
  constructor
  · intro pre po post hsplit hpre hres hdnone
    obtain ⟨p, hp⟩ := Option.isSome_iff_exists.mp hres
    have hplan : planUpdateLines s.products newLines (ordersLines s oid) =
        Except.error (Err.missingLine po.product) := by
      rw [hsplit]
      exact planUpdateLines_append_error s.products newLines pre (po :: post) _ hpre
        (planUpdateLines_head_missing s.products newLines po post p hp hdnone)
    simp [updateOrder, ho, hguard, hplan]
  · intro hall
    have hplan := planUpdateLines_good s.products newLines _ hall
    rw [updateOrder_ok_eq s oid newLines o _ ho hguard hplan]
    refine ⟨rfl, rfl, ?_⟩
    intro pid hpid
    show lookup (commitProducts s.products
      ((ordersLines s oid).map (updWrite s.products newLines))) pid = lookup s.products pid
    refine lookup_commitProducts_notMem s.products _ pid ?_
    intro w hw he
    obtain ⟨po, hpo, hwl⟩ := List.mem_map.mp hw
    apply hpid
    rw [← he, ← hwl]
    exact List.mem_map_of_mem _ hpo

/-- C8 amended, witnessed at concrete inputs: dropping the order's only
product from the request fails with MissingLine naming it and changes
nothing, while a request covering the order's product set succeeds. -/
theorem C8_update_witness :
    updateOrder exExtraLine 1 [(2, 1)] = (exExtraLine, Except.error (Err.missingLine 1)) ∧
    (updateOrder exExtraLine 1 [(1, 3)]).2 = Except.ok () :=
  ⟨(C8_update_product_set_rule exExtraLine 1 [(2, 1)]
      { user := 1, order_status := OrderStatus.stable, updated := 0 } rfl rfl).1
      [] { quantity := 2, product := 1, order := 1 } [] rfl (by decide) (by decide) rfl,
   ((C8_update_product_set_rule exExtraLine 1 [(1, 3)]
      { user := 1, order_status := OrderStatus.stable, updated := 0 } rfl rfl).2
      (by decide)).1⟩

/- The report dict appends a genuinely new product name and keeps
positions when a name repeats. -/

theorem updateByName_fresh (l : List (String × SummaryRow)) (key : String)
    (row : SummaryRow) (h : key ∉ l.map Prod.fst) :
    updateByName l key row = l ++ [(key, row)] := by
  induction l with
  | nil => simp [updateByName]
  | cons hd tl ih =>
    obtain ⟨k, r⟩ := hd
    simp only [List.map_cons, List.mem_cons] at h
    push_neg at h
    simp only [updateByName, ih h.2, List.cons_append]
    rw [if_neg (Ne.symm h.1)]

theorem buildDict_foldl_fresh (s : State) (d1 d2 : Int) (ps : List (Nat × Product))
    (acc : List (String × SummaryRow))
    (hnd : (ps.map (fun kp => kp.2.product_name)).Nodup)
    (hacc : ∀ kp ∈ ps, kp.2.product_name ∉ acc.map Prod.fst) :
    ps.foldl (fun a kp => updateByName a kp.2.product_name (productRow s d1 d2 kp.1 kp.2))
        acc =
      acc ++ ps.map (fun kp => (kp.2.product_name, productRow s d1 d2 kp.1 kp.2)) := by
  induction ps generalizing acc with
  | nil => simp
  | cons kp tl ih =>
    simp only [List.map_cons, List.nodup_cons] at hnd
    have hacc' : ∀ kp' ∈ tl, kp'.2.product_name ∉
        (acc ++ [(kp.2.product_name, productRow s d1 d2 kp.1 kp.2)]).map Prod.fst := by
      intro kp' hkp'
      simp only [List.map_append, List.mem_append, List.map_cons, List.map_nil,
        List.mem_singleton, not_or]
      refine ⟨hacc kp' (List.mem_cons_of_mem _ hkp'), ?_⟩
      intro hname
      exact hnd.1 (hname ▸ List.mem_map_of_mem _ hkp')
    rw [List.foldl_cons, updateByName_fresh acc _ _ (hacc kp (by simp)),
      ih _ hnd.2 hacc']
    simp

/-- C9 counterexample: the report dict is keyed by product name, so a
catalog with two distinct products that share a name produces a single
data row, not one row per catalog product — and the later product's
(zero-activity) row overwrites the earlier product's real metrics. -/
theorem C9_counterexample_duplicate_names_collapse :
    summaryRows exDupNames 0 10 =
      [{ product := "p", revenue := 0, profit := 0, sold := 0, returned := 0 }] ∧
    exDupNames.products.length = 2 :=
  ⟨rfl, rfl⟩

/-- C9 amended: the artifact always starts with the header row product,
revenue, profit, sold, returned in exactly that order; when all product
names are distinct it is followed by exactly one data row per catalog
product, in catalog order, and every product with zero matching in-window
order lines gets all four metrics equal to zero. -/
theorem C9_summary_csv_shape (s : State) (d1 d2 : Int)
    (hnd : (s.products.map (fun kp => kp.2.product_name)).Nodup) :
    summaryCsv s d1 d2 = ["product", "revenue", "profit", "sold", "returned"] ::
      s.products.map (fun kp => csvRow (kp.2.product_name, productRow s d1 d2 kp.1 kp.2)) ∧
    ∀ kp ∈ s.products,
      s.productOrders.filter
        (fun po => inWindow s d1 d2 po && decide (po.product = kp.1)) = [] →
      productRow s d1 d2 kp.1 kp.2 =
        { product := kp.2.product_name, revenue := 0, profit := 0, sold := 0,
          returned := 0 } := by
  constructor
  · have hb : buildProductDict s d1 d2 =
        s.products.map (fun kp => (kp.2.product_name, productRow s d1 d2 kp.1 kp.2)) := by
      have h := buildDict_foldl_fresh s d1 d2 s.products [] hnd (by simp)
      simpa [buildProductDict] using h
    simp only [summaryCsv, hb, List.map_map]
    rfl
  · intro kp hkp hfil
    simp [productRow, hfil]

/-- C9 amended, witnessed at a concrete store with distinct names: the
produced artifact is the header row followed by the per-product rows. -/
theorem C9_summary_csv_witness :
    summaryCsv exSummaryWindow 0 10 =
      ["product", "revenue", "profit", "sold", "returned"] ::
        exSummaryWindow.products.map (fun kp =>
          csvRow (kp.2.product_name, productRow exSummaryWindow 0 10 kp.1 kp.2)) :=
  (C9_summary_csv_shape exSummaryWindow 0 10 (by decide)).1

end Store
